import Mathlib

/-!
Shallow embedding of the damage-and-status simulation engine of the
warframe-damage-calculator repository.

Numeric values are modelled as rationals (`ℚ`); the Python code computes with
floats, but every claim under scrutiny is about the algebraic structure of the
formulas and state machines, not about rounding.  Python `dict`s keyed by
element name are modelled by the `Elements` record (field per key, as the
dataclass in `src/calculator/wf_dataclasses.py` does), faction dictionaries by
`EnemyFaction → Option ℚ` (the only observation made by the code is
`faction.get(key, 0)`), and the `DotState.active_dots` dict by an
insertion-ordered association list.  Fallible operations (Python code that can
raise `ZeroDivisionError`) return `Option`.
-/

namespace WF

/-- Names of the damage fields of the `Elements` dataclass
(`src/calculator/wf_dataclasses.py`). -/
inductive ElemName where
  | impact | puncture | slash
  | cold | electricity | heat | toxin
  | cold_standalone | electricity_standalone | heat_standalone | toxin_standalone
  | blast | corrosive | gas | magnetic | radiation | viral
  | void | tau | true_dmg
  deriving DecidableEq

/-- The four basic elements, i.e. the keys of `ELEMENT_COMBINATION_MAP`. -/
inductive BaseElem where
  | cold | electricity | heat | toxin
  deriving DecidableEq

/-- The `Elements` dataclass: per-element damage contributions. -/
@[ext] structure Elements where
  impact : ℚ := 0
  puncture : ℚ := 0
  slash : ℚ := 0
  cold : ℚ := 0
  electricity : ℚ := 0
  heat : ℚ := 0
  toxin : ℚ := 0
  cold_standalone : ℚ := 0
  electricity_standalone : ℚ := 0
  heat_standalone : ℚ := 0
  toxin_standalone : ℚ := 0
  blast : ℚ := 0
  corrosive : ℚ := 0
  gas : ℚ := 0
  magnetic : ℚ := 0
  radiation : ℚ := 0
  viral : ℚ := 0
  void : ℚ := 0
  tau : ℚ := 0
  true_dmg : ℚ := 0
  deriving DecidableEq

/-- `getattr(self, name)` on an `Elements` instance. -/
def Elements.get (x : Elements) : ElemName → ℚ
  | .impact => x.impact
  | .puncture => x.puncture
  | .slash => x.slash
  | .cold => x.cold
  | .electricity => x.electricity
  | .heat => x.heat
  | .toxin => x.toxin
  | .cold_standalone => x.cold_standalone
  | .electricity_standalone => x.electricity_standalone
  | .heat_standalone => x.heat_standalone
  | .toxin_standalone => x.toxin_standalone
  | .blast => x.blast
  | .corrosive => x.corrosive
  | .gas => x.gas
  | .magnetic => x.magnetic
  | .radiation => x.radiation
  | .viral => x.viral
  | .void => x.void
  | .tau => x.tau
  | .true_dmg => x.true_dmg

/-- `setattr(self, name, v)` on an `Elements` instance. -/
def Elements.set (x : Elements) : ElemName → ℚ → Elements
  | .impact, v => { x with impact := v }
  | .puncture, v => { x with puncture := v }
  | .slash, v => { x with slash := v }
  | .cold, v => { x with cold := v }
  | .electricity, v => { x with electricity := v }
  | .heat, v => { x with heat := v }
  | .toxin, v => { x with toxin := v }
  | .cold_standalone, v => { x with cold_standalone := v }
  | .electricity_standalone, v => { x with electricity_standalone := v }
  | .heat_standalone, v => { x with heat_standalone := v }
  | .toxin_standalone, v => { x with toxin_standalone := v }
  | .blast, v => { x with blast := v }
  | .corrosive, v => { x with corrosive := v }
  | .gas, v => { x with gas := v }
  | .magnetic, v => { x with magnetic := v }
  | .radiation, v => { x with radiation := v }
  | .viral, v => { x with viral := v }
  | .void, v => { x with void := v }
  | .tau, v => { x with tau := v }
  | .true_dmg, v => { x with true_dmg := v }

/-- `Elements.__add__` (inherited `_SupportsMath.__add__`): every field of the
two dataclasses is a number, so `_add_field` adds the fields pairwise. -/
def Elements.add (x y : Elements) : Elements where
  impact := x.impact + y.impact
  puncture := x.puncture + y.puncture
  slash := x.slash + y.slash
  cold := x.cold + y.cold
  electricity := x.electricity + y.electricity
  heat := x.heat + y.heat
  toxin := x.toxin + y.toxin
  cold_standalone := x.cold_standalone + y.cold_standalone
  electricity_standalone := x.electricity_standalone + y.electricity_standalone
  heat_standalone := x.heat_standalone + y.heat_standalone
  toxin_standalone := x.toxin_standalone + y.toxin_standalone
  blast := x.blast + y.blast
  corrosive := x.corrosive + y.corrosive
  gas := x.gas + y.gas
  magnetic := x.magnetic + y.magnetic
  radiation := x.radiation + y.radiation
  viral := x.viral + y.viral
  void := x.void + y.void
  tau := x.tau + y.tau
  true_dmg := x.true_dmg + y.true_dmg

/-- `Elements.__mul__` / `__imul__` with a scalar: every field is scaled. -/
def Elements.scale (x : Elements) (k : ℚ) : Elements where
  impact := x.impact * k
  puncture := x.puncture * k
  slash := x.slash * k
  cold := x.cold * k
  electricity := x.electricity * k
  heat := x.heat * k
  toxin := x.toxin * k
  cold_standalone := x.cold_standalone * k
  electricity_standalone := x.electricity_standalone * k
  heat_standalone := x.heat_standalone * k
  toxin_standalone := x.toxin_standalone * k
  blast := x.blast * k
  corrosive := x.corrosive * k
  gas := x.gas * k
  magnetic := x.magnetic * k
  radiation := x.radiation * k
  viral := x.viral * k
  void := x.void * k
  tau := x.tau * k
  true_dmg := x.true_dmg * k

/-- `Elements.total`: sum of all field values. -/
def Elements.total (x : Elements) : ℚ :=
  x.impact + x.puncture + x.slash + x.cold + x.electricity + x.heat + x.toxin
    + x.cold_standalone + x.electricity_standalone + x.heat_standalone
    + x.toxin_standalone + x.blast + x.corrosive + x.gas + x.magnetic
    + x.radiation + x.viral + x.void + x.tau + x.true_dmg

/-- `Elements.total_with_vulnerability`: per-field product with a parallel
vulnerability vector, summed over all fields. -/
def Elements.total_with_vulnerability (x v : Elements) : ℚ :=
  x.impact * v.impact + x.puncture * v.puncture + x.slash * v.slash
    + x.cold * v.cold + x.electricity * v.electricity + x.heat * v.heat
    + x.toxin * v.toxin + x.cold_standalone * v.cold_standalone
    + x.electricity_standalone * v.electricity_standalone
    + x.heat_standalone * v.heat_standalone
    + x.toxin_standalone * v.toxin_standalone + x.blast * v.blast
    + x.corrosive * v.corrosive + x.gas * v.gas + x.magnetic * v.magnetic
    + x.radiation * v.radiation + x.viral * v.viral + x.void * v.void
    + x.tau * v.tau + x.true_dmg * v.true_dmg

/-- `Elements.set_all(v)`: the vector with every field equal to `v`
(used to build the default all-ones vulnerability vector). -/
def Elements.const (v : ℚ) : Elements where
  impact := v
  puncture := v
  slash := v
  cold := v
  electricity := v
  heat := v
  toxin := v
  cold_standalone := v
  electricity_standalone := v
  heat_standalone := v
  toxin_standalone := v
  blast := v
  corrosive := v
  gas := v
  magnetic := v
  radiation := v
  viral := v
  void := v
  tau := v
  true_dmg := v

/-- `Elements.get_element`: for the four basic elements (the keys of
`ELEMENT_COMBINATION_MAP`) the standalone companion field is added in. -/
def Elements.get_element (x : Elements) : ElemName → ℚ
  | .cold => x.cold + x.cold_standalone
  | .electricity => x.electricity + x.electricity_standalone
  | .heat => x.heat + x.heat_standalone
  | .toxin => x.toxin + x.toxin_standalone
  | e => x.get e

/-- Field name of a basic element. -/
def BaseElem.toName : BaseElem → ElemName
  | .cold => .cold
  | .electricity => .electricity
  | .heat => .heat
  | .toxin => .toxin

/-- Whether an element name is a key of `ELEMENT_COMBINATION_MAP`. -/
def ElemName.toBase : ElemName → Option BaseElem
  | .cold => some .cold
  | .electricity => some .electricity
  | .heat => some .heat
  | .toxin => some .toxin
  | _ => none

/-- `ELEMENT_COMBINATION_MAP[e1][e2]`.  The diagonal entries are absent from
the Python table; they are unreachable because `combine_elements` deduplicates
the order list before pairing, so the value chosen here (`blast`) is never
read by any reachable call. -/
def pairCombine : BaseElem → BaseElem → ElemName
  | .cold, .electricity => .magnetic
  | .cold, .heat => .blast
  | .cold, .toxin => .viral
  | .electricity, .cold => .magnetic
  | .electricity, .heat => .radiation
  | .electricity, .toxin => .corrosive
  | .heat, .cold => .blast
  | .heat, .electricity => .radiation
  | .heat, .toxin => .gas
  | .toxin, .cold => .viral
  | .toxin, .electricity => .corrosive
  | .toxin, .heat => .gas
  | .cold, .cold => .blast
  | .electricity, .electricity => .blast
  | .heat, .heat => .blast
  | .toxin, .toxin => .blast

/-- The filtering/deduplication prologue of `combine_elements`: keep the first
occurrence of every distinct basic element, drop everything else.  `seen` is
the `visited` set. -/
def dedupBasics : List ElemName → List BaseElem → List BaseElem
  | [], _ => []
  | e :: rest, seen =>
    match e.toBase with
    | some b =>
      if b ∈ seen then dedupBasics rest seen
      else b :: dedupBasics rest (b :: seen)
    | none => dedupBasics rest seen

/-- One iteration of the `while len(element_order_clean) > 1` body of
`combine_elements`: fold the two popped elements into their compound and zero
them. -/
def combineStep (x : Elements) (e1 e2 : BaseElem) : Elements :=
  let c := pairCombine e1 e2
  let x := x.set c (x.get e1.toName + x.get e2.toName + x.get c)
  (x.set e1.toName 0).set e2.toName 0

/-- The pairing loop of `combine_elements`, consuming the cleaned order two at
a time. -/
def combineLoop : Elements → List BaseElem → Elements
  | x, e1 :: e2 :: rest => combineLoop (combineStep x e1 e2) rest
  | x, _ => x

/-- `Elements._combine_standalone_elements`: each `*_standalone` field is
folded into its base field and zeroed.  The Python iterates over all dataclass
fields and acts on the four whose name ends in `_standalone`. -/
def combineStandalone (x : Elements) : Elements :=
  { x with
    cold := x.cold + x.cold_standalone
    electricity := x.electricity + x.electricity_standalone
    heat := x.heat + x.heat_standalone
    toxin := x.toxin + x.toxin_standalone
    cold_standalone := 0
    electricity_standalone := 0
    heat_standalone := 0
    toxin_standalone := 0 }

/-- `Elements.combine_elements(element_order, combine_standalone)`. -/
def Elements.combine_elements (x : Elements) (order : List ElemName)
    (combine_standalone : Bool := true) : Elements :=
  let x := combineLoop x (dedupBasics order [])
  if combine_standalone then combineStandalone x else x

/-- `EnemyFaction` (`StrEnum`). -/
inductive EnemyFaction where
  | noneF | grineer | corpus | infested | orokin | murmur | sentient
  deriving DecidableEq

/-- `EnemyType` (`StrEnum`); `tridolon` is the boss-class type. -/
inductive EnemyType where
  | noneT | tridolon
  deriving DecidableEq

/-- Faction-bonus dictionaries.  A Python `dict[str, float]` is modelled by a
partial map; the only keys the calculator ever reads are the faction enum
values. -/
def FactionMap : Type := EnemyFaction → Option ℚ

/-- `dict.get(key, 0)`. -/
def factionGet (f : FactionMap) (k : EnemyFaction) : ℚ := (f k).getD 0

/-- The dict branch of `_SupportsMath._add_field`: values of shared keys are
summed, unique keys of either operand are kept. -/
def factionAdd (f g : FactionMap) : FactionMap := fun k =>
  match f k, g k with
  | some x, some y => some (x + y)
  | some x, none => some x
  | none, some y => some y
  | none, none => none

/-- The empty faction dict. -/
def factionEmpty : FactionMap := fun _ => none

/-- The shared fields of `_GeneralStat`; `StaticBuff` adds nothing to them, so
it is represented by this type directly. -/
@[ext] structure GeneralStat where
  damage : ℚ := 0
  attack_speed : ℚ := 0
  multishot : ℚ := 0
  critical_chance : ℚ := 0
  critical_damage : ℚ := 0
  status_chance : ℚ := 0
  status_duration : ℚ := 0
  elements : Elements := {}
  faction : FactionMap := factionEmpty

/-- `StaticBuff` is `_GeneralStat` with no extra fields. -/
abbrev StaticBuff := GeneralStat

/-- `_SupportsMath.__add__` specialised to two `_GeneralStat` bundles: every
field of `self` also exists on `other`, numeric fields are added, the
`elements` dataclasses are added componentwise and the `faction` dicts are
merged. -/
def GeneralStat.add (a b : GeneralStat) : GeneralStat where
  damage := a.damage + b.damage
  attack_speed := a.attack_speed + b.attack_speed
  multishot := a.multishot + b.multishot
  critical_chance := a.critical_chance + b.critical_chance
  critical_damage := a.critical_damage + b.critical_damage
  status_chance := a.status_chance + b.status_chance
  status_duration := a.status_duration + b.status_duration
  elements := a.elements.add b.elements
  faction := factionAdd a.faction b.faction

/-- `InGameBuff`: the `_GeneralStat` fields plus the in-game combat state.
`callbacks` holds opaque callback identifiers; the claims under study only
need that the list is carried along unchanged when the second operand lacks
the field. -/
@[ext] structure InGameBuff where
  damage : ℚ := 0
  attack_speed : ℚ := 0
  multishot : ℚ := 0
  critical_chance : ℚ := 0
  critical_damage : ℚ := 0
  status_chance : ℚ := 0
  status_duration : ℚ := 0
  elements : Elements := {}
  faction : FactionMap := factionEmpty
  galvanized_shot : ℤ := 0
  galvanized_diffusion : ℤ := 0
  galvanized_aptitude : ℤ := 0
  final_additive_cd : ℚ := 0
  num_debuffs : ℤ := 0
  final_multiplier : ℚ := 1
  callbacks : List ℕ := []

/-- `InGameBuff.__add__(static_buff)` (via `_SupportsMath._add_fields`): the
iteration runs over the fields of `self` (the `InGameBuff`); fields that also
exist on the `StaticBuff` are combined, the remaining fields
(`galvanized_*`, `final_additive_cd`, `num_debuffs`, `final_multiplier`,
`callbacks`) fall back to `self`'s value unchanged. -/
def InGameBuff.addStatic (a : InGameBuff) (b : StaticBuff) : InGameBuff where
  damage := a.damage + b.damage
  attack_speed := a.attack_speed + b.attack_speed
  multishot := a.multishot + b.multishot
  critical_chance := a.critical_chance + b.critical_chance
  critical_damage := a.critical_damage + b.critical_damage
  status_chance := a.status_chance + b.status_chance
  status_duration := a.status_duration + b.status_duration
  elements := a.elements.add b.elements
  faction := factionAdd a.faction b.faction
  galvanized_shot := a.galvanized_shot
  galvanized_diffusion := a.galvanized_diffusion
  galvanized_aptitude := a.galvanized_aptitude
  final_additive_cd := a.final_additive_cd
  num_debuffs := a.num_debuffs
  final_multiplier := a.final_multiplier
  callbacks := a.callbacks

/-- `WeaponStat` (defaults as in the dataclass, before `__post_init__`). -/
@[ext] structure WeaponStat where
  damage : ℚ := 1
  attack_speed : ℚ := 1
  multishot : ℚ := 1
  critical_chance : ℚ := 0
  critical_damage : ℚ := 1
  status_chance : ℚ := 0
  status_duration : ℚ := 1
  elements : Elements := {}
  faction : FactionMap := factionEmpty

/-- `WeaponStat._normalize_elements`, run by `__post_init__`: a zero-total
vector is replaced by pure impact, any other total is scaled to 1 (the
`total == 1` case is left untouched by the code; scaling by `1/1` would give
the same value). -/
def WeaponStat.normalize_elements (w : WeaponStat) : WeaponStat :=
  let total := w.elements.total
  if total = 0 then { w with elements := { impact := 1 } }
  else if total = 1 then w
  else { w with elements := w.elements.scale (1 / total) }

/-- `EnemyStat` restricted to the fields the damage formulas read.  The
default vulnerability vector is all ones (`set_all(1.0)` in
`__post_init__`). -/
structure EnemyStat where
  faction : EnemyFaction := .noneF
  type : EnemyType := .noneT
  elements_vulnerability : Elements := Elements.const 1

/-- The state a `DamageCalculator` carries after `__init__`:
`final_buff = in_game_buff + static_buff` with the in-game-buff callbacks
already applied, and `combined_elements = final_buff.elements +
weapon_stat.elements`, combined along `element_order` when that list is
non-empty.  `final_multiplier` and `final_additive_cd` are the fields the
formulas read from `in_game_buff` directly (they coincide with the merged
bundle's values, since `StaticBuff` lacks both fields). -/
structure DamageCalculator where
  weapon_stat : WeaponStat
  final_buff : InGameBuff
  enemy_stat : EnemyStat
  combined_elements : Elements

/-- The element-combination part of `DamageCalculator.__init__`: the merged
elemental vector is combined only when `element_order` is non-empty. -/
def mkCombinedElements (final_buff : InGameBuff) (weapon : WeaponStat)
    (element_order : List ElemName) : Elements :=
  let combined := final_buff.elements.add weapon.elements
  if element_order = [] then combined
  else combined.combine_elements element_order

/-- `DamageCalculator.__init__` for a calculator without callbacks. -/
def mkCalculator (weapon : WeaponStat) (static_buff : StaticBuff)
    (in_game_buff : InGameBuff) (enemy : EnemyStat)
    (element_order : List ElemName) : DamageCalculator :=
  let fb := in_game_buff.addStatic static_buff
  { weapon_stat := weapon
    final_buff := fb
    enemy_stat := enemy
    combined_elements := mkCombinedElements fb weapon element_order }

namespace DamageCalculator

/-- `_get_base`. -/
def get_base (c : DamageCalculator) : ℚ := 1 + c.final_buff.damage

/-- `_get_cc`. -/
def get_cc (c : DamageCalculator) : ℚ :=
  c.weapon_stat.critical_chance * (1 + c.final_buff.critical_chance)

/-- `_get_cd` (reads `final_additive_cd` from the in-game buff, which the
merge left unchanged on `final_buff`). -/
def get_cd (c : DamageCalculator) : ℚ :=
  c.weapon_stat.critical_damage * (1 + c.final_buff.critical_damage)
    + c.final_buff.final_additive_cd

/-- `_get_crit`. -/
def get_crit (c : DamageCalculator) : ℚ := c.get_cc * (c.get_cd - 1) + 1

/-- `_get_faction`. -/
def get_faction (c : DamageCalculator) : ℚ :=
  1 + factionGet c.final_buff.faction c.enemy_stat.faction

/-- `_get_ms`. -/
def get_ms (c : DamageCalculator) : ℚ :=
  c.weapon_stat.multishot * (1 + c.final_buff.multishot)

/-- `_get_as`. -/
def get_as (c : DamageCalculator) : ℚ :=
  c.weapon_stat.attack_speed * (1 + c.final_buff.attack_speed)

/-- `_get_sc()` with no element argument: total status chance. -/
def get_sc_total (c : DamageCalculator) : ℚ :=
  c.weapon_stat.status_chance * (1 + c.final_buff.status_chance)

/-- `_get_sc(element)`: total status chance apportioned by the element's share
of the combined elemental vector.  The Python expression divides by
`combined_elements.total()` with no guard, so a zero total raises
`ZeroDivisionError`, modelled as `none`. -/
def get_sc_elem (c : DamageCalculator) (element : ElemName) : Option ℚ :=
  if c.combined_elements.total = 0 then none
  else some (c.get_sc_total * c.combined_elements.get_element element
    / c.combined_elements.total)

/-- `calc_elem`: the vulnerability-weighted total of the combined vector.
Note that the body reads neither `enemy_stat.type` nor any radiation/cold
special case, despite its docstring. -/
def calc_elem (c : DamageCalculator) : ℚ :=
  c.combined_elements.total_with_vulnerability c.enemy_stat.elements_vulnerability

/-- `calc_single_hit_without_elements`. -/
def calc_single_hit_without_elements (c : DamageCalculator) : ℚ :=
  c.weapon_stat.damage * c.get_base * c.get_crit * c.get_faction
    * c.final_buff.final_multiplier

/-- `calc_single_hit`. -/
def calc_single_hit (c : DamageCalculator) : ℚ :=
  c.calc_single_hit_without_elements * c.calc_elem

/-- `_get_eidolon_non_crit_penalty`. -/
def get_eidolon_non_crit_penalty (c : DamageCalculator) : ℚ :=
  let cc := c.weapon_stat.critical_chance * (1 + c.final_buff.critical_chance)
  if cc < 1 then 1 - (1 - cc) * (1 / 2) else 1

/-- `calc_direct_dps`: `reduce(mul, muls, 1)` over
`[per_hit, hit_per_sec]` plus the eidolon penalty for `TRIDOLON` targets. -/
def calc_direct_dps (c : DamageCalculator) : ℚ :=
  let muls := [c.calc_single_hit, c.get_as * c.get_ms]
    ++ (if c.enemy_stat.type = EnemyType.tridolon
        then [c.get_eidolon_non_crit_penalty] else [])
  muls.foldl (· * ·) 1

/-- `calc_dot(element)`: `reduce(mul, muls, 1)` over
`[0.5, calc_single_hit_without_elements(), elem_mod_and_buff, faction,
layers_per_sec]`; `none` when the status-chance apportionment divides by a
zero combined total. -/
def calc_dot (c : DamageCalculator) (element : ElemName) : Option ℚ :=
  match c.get_sc_elem element with
  | none => none
  | some sce =>
    some (([(1 : ℚ) / 2, c.calc_single_hit_without_elements,
      c.final_buff.elements.get_element element + 1, c.get_faction,
      sce * c.get_as * c.get_ms]).foldl (· * ·) 1)

end DamageCalculator

/-- Modelled from the spec: the per-element DOT expected-DPS formula exactly as
§4.2 states it, for comparison with `calc_dot` — `0.5 × (weapon.damage × base ×
faction × final_multiplier) × (uncombined per-element modifier value + 1) ×
status chance apportioned to the element × attack rate × multishot`, with no
critical-hit factor and a single faction factor. -/
def calc_dot_spec (c : DamageCalculator) (element : ElemName) : Option ℚ :=
  match c.get_sc_elem element with
  | none => none
  | some sce =>
    some ((1 / 2) * (c.weapon_stat.damage * c.get_base * c.get_faction
      * c.final_buff.final_multiplier)
      * (c.final_buff.elements.get_element element + 1)
      * sce * c.get_as * c.get_ms)

/-- `DotType` (`src/calculator/dot_dataclasses.py`). -/
inductive DotType where
  | heat | toxin | slash | electricity | gas | bleed
  deriving DecidableEq

/-- `DotBehavior`. -/
inductive DotBehavior where
  | refresh_all | independent
  deriving DecidableEq

/-- `DotInstance`. -/
@[ext] structure DotInstance where
  dot_type : DotType
  damage_per_tick : ℚ
  remaining_duration : ℚ
  tick_rate : ℚ := 1
  total_duration : ℚ := 6
  deriving DecidableEq

/-- `DotInstance.tick`: damage dealt this tick, together with the updated
instance.  An already-expired instance (`remaining_duration <= 0`) deals
nothing and is not decremented further. -/
def DotInstance.tick (d : DotInstance) (delta : ℚ) : ℚ × DotInstance :=
  if d.remaining_duration ≤ 0 then (0, d)
  else (d.damage_per_tick * delta * d.tick_rate,
    { d with remaining_duration := d.remaining_duration - delta })

/-- `DotInstance.is_active`. -/
def DotInstance.is_active (d : DotInstance) : Bool := 0 < d.remaining_duration

/-- The `active_dots` dict, as an insertion-ordered association list. -/
abbrev DotMap : Type := List (DotType × List DotInstance)

/-- Dict lookup on `active_dots`. -/
def getDots : DotMap → DotType → Option (List DotInstance)
  | [], _ => none
  | p :: rest, t => if p.1 = t then some p.2 else getDots rest t

/-- `self.active_dots[dot_type] = f(...)` on an existing key. -/
def updateDots (t : DotType) (f : List DotInstance → List DotInstance) :
    DotMap → DotMap
  | [] => []
  | p :: rest =>
    if p.1 = t then (p.1, f p.2) :: rest else p :: updateDots t f rest

/-- `if dot_type not in self.active_dots: self.active_dots[dot_type] = []`. -/
def ensureKey (t : DotType) (m : DotMap) : DotMap :=
  match getDots m t with
  | some _ => m
  | none => m ++ [(t, [])]

/-- `DotState`. -/
structure DotState where
  active_dots : DotMap := []

/-- `DotState.add_dot`: ensure the key exists, then either refresh every
existing instance's remaining duration to the new instance's total duration
and append (heat), or just append (independent). -/
def DotState.add_dot (s : DotState) (inst : DotInstance)
    (behavior : DotBehavior) : DotState :=
  let t := inst.dot_type
  let f : List DotInstance → List DotInstance :=
    match behavior with
    | .refresh_all => fun l =>
        (l.map fun d => { d with remaining_duration := inst.total_duration })
          ++ [inst]
    | .independent => fun l => l ++ [inst]
  ⟨updateDots t f (ensureKey t s.active_dots)⟩

/-- The inner loop of `DotState.tick_all` over one key's instance list:
total damage dealt, and the surviving (still active) instances in order. -/
def tickList (delta : ℚ) : List DotInstance → ℚ × List DotInstance
  | [] => (0, [])
  | inst :: rest =>
    let r := inst.tick delta
    let rr := tickList delta rest
    (r.1 + rr.1, (if r.2.is_active then [r.2] else []) ++ rr.2)

/-- `DotState.tick_all`: ticks every key's list; a key whose instances all
expired is deleted, and — exactly as in the code — its damage for this tick is
then *not* recorded in the returned `damage_dealt` dict. -/
def tickEntries (delta : ℚ) : DotMap → DotMap × List (DotType × ℚ)
  | [] => ([], [])
  | (t, l) :: rest =>
    let r := tickList delta l
    let rr := tickEntries delta rest
    if r.2 = [] then (rr.1, rr.2)
    else ((t, r.2) :: rr.1, (t, r.1) :: rr.2)

/-- `DotState.tick_all` at the state level: the updated state and the
`damage_dealt` dict. -/
def DotState.tick_all (s : DotState) (delta : ℚ) :
    DotState × List (DotType × ℚ) :=
  let r := tickEntries delta s.active_dots
  (⟨r.1⟩, r.2)

/-- The mutable state of `HeatArmorStripDebuff`
(`src/calculator/wf_dataclasses.py`): `strip_stage` starts at 0,
`last_tick_time` at 0 and `last_recovery_tick` at −1. -/
@[ext] structure HeatStripState where
  strip_stage : ℕ := 0
  last_tick_time : ℚ := 0
  last_recovery_tick : ℚ := -1
  deriving DecidableEq

/-- `STRIP_PERCENTAGES[stage]` (the tuple `(0.00, 0.15, 0.30, 0.40, 0.50)`;
`strip_stage` never leaves `0..4`). -/
def stripPct : ℕ → ℚ
  | 0 => 0
  | 1 => 3 / 20
  | 2 => 3 / 10
  | 3 => 2 / 5
  | _ => 1 / 2

/-- `STRIP_INTERVAL`. -/
def STRIP_INTERVAL : ℚ := 1 / 2

/-- `RECOVERY_INTERVAL`. -/
def RECOVERY_INTERVAL : ℚ := 3 / 2

/-- `HeatArmorStripDebuff._apply_strip`: advance one stage when the strip
interval has elapsed since the last transition, up to the maximum stage
(`len(STRIP_PERCENTAGES) - 1 = 4`); returns the new debuff state and the new
current armor. -/
def applyStrip (d : HeatStripState) (base_armor current_armor t : ℚ) :
    HeatStripState × ℚ :=
  if 4 ≤ d.strip_stage then (d, current_armor)
  else if t - d.last_tick_time < STRIP_INTERVAL then (d, current_armor)
  else
    let stage := d.strip_stage + 1
    ({ d with strip_stage := stage, last_tick_time := t },
      base_armor * (1 - stripPct stage))

/-- `HeatArmorStripDebuff._apply_recovery`: recede one stage when the recovery
interval has elapsed since the last transition.  The first recovery call after
construction only initialises `last_recovery_tick`; afterwards the elapsed
time is measured against `last_tick_time`, exactly as the code does. -/
def applyRecovery (d : HeatStripState) (base_armor current_armor t : ℚ) :
    HeatStripState × ℚ :=
  if d.strip_stage = 0 then (d, current_armor)
  else if d.last_recovery_tick < 0 then
    ({ d with last_recovery_tick := t }, current_armor)
  else if t - d.last_tick_time < RECOVERY_INTERVAL then (d, current_armor)
  else
    let stage := d.strip_stage - 1
    ({ d with strip_stage := stage, last_tick_time := t },
      base_armor * (1 - stripPct stage))

/-- The enemy state the debuff machinery reads and writes: the heat entry of
`dot_state.active_dots` (`none` when the key is absent — `tick_all` deletes
emptied keys, so for reachable states `none` means "no heat DOT instances"),
the armor values, and the heat-armor-strip debuff when it is in
`active_debuffs` (the enemy holds at most one debuff per type). -/
structure EnemyDebuffView where
  heat_dots : Option (List DotInstance) := none
  base_armor : ℚ := 0
  current_armor : ℚ := 0
  debuff : Option HeatStripState := none

/-- `HeatArmorStripDebuff.should_expire`: the heat entry must be absent
(`.get(HEAT, 0) == 0` holds only when the key is missing) and the stage fully
recovered. -/
def shouldExpire (e : EnemyDebuffView) (d : HeatStripState) : Prop :=
  e.heat_dots = none ∧ d.strip_stage = 0

instance (e : EnemyDebuffView) (d : HeatStripState) :
    Decidable (shouldExpire e d) := by
  unfold shouldExpire; infer_instance

/-- `HeatArmorStripDebuff.tick`: strip while `len(.get(HEAT, [])) > 0`,
otherwise recover. -/
def heatDebuffTick (e : EnemyDebuffView) (d : HeatStripState) (t : ℚ) :
    HeatStripState × ℚ :=
  if 0 < (e.heat_dots.getD []).length then
    applyStrip d e.base_armor e.current_armor t
  else
    applyRecovery d e.base_armor e.current_armor t

/-- `DebuffManager.update_debuffs` for an enemy carrying the heat armor-strip
debuff (the only debuff type in the code): an expired debuff is removed
without ticking, otherwise its tick runs. -/
def update_debuffs (e : EnemyDebuffView) (t : ℚ) : EnemyDebuffView :=
  match e.debuff with
  | none => e
  | some d =>
    if shouldExpire e d then { e with debuff := none }
    else
      let r := heatDebuffTick e d t
      { e with debuff := some r.1, current_armor := r.2 }

/-- `time_between_shots` in `simulate_combat`: `1.0 / attack_speed` when the
attack speed is positive, else `float("inf")`, modelled as `none`. -/
def timeBetweenShots (attack_speed : ℚ) : Option ℚ :=
  if 0 < attack_speed then some (1 / attack_speed) else none

/-- `shot_timer + time_between_shots` on timers that may be infinite. -/
def xAdd : Option ℚ → Option ℚ → Option ℚ
  | some a, some b => some (a + b)
  | _, _ => none

/-- `shot_timer - time_step` (an infinite timer stays infinite). -/
def xSub (t : Option ℚ) (s : ℚ) : Option ℚ := t.map (· - s)

/-- `shot_timer <= 0` (false for an infinite timer). -/
def xLeZero : Option ℚ → Bool
  | none => false
  | some q => q ≤ 0

/-- The inner `while shot_timer <= 0 and time_elapsed < duration` firing loop
of `simulate_combat`, with explicit fuel (`none` = fuel exhausted before the
loop exited); returns the shot timer and shot count after the loop. -/
def fireLoop (fuel : ℕ) (duration : ℚ) (tbs : Option ℚ) (time_elapsed : ℚ)
    (shot_timer : Option ℚ) (shots : ℕ) : Option (Option ℚ × ℕ) :=
  match fuel with
  | 0 => none
  | f + 1 =>
    if xLeZero shot_timer ∧ time_elapsed < duration then
      fireLoop f duration tbs time_elapsed (xAdd shot_timer tbs) (shots + 1)
    else some (shot_timer, shots)

/-- The outer `while time_elapsed < duration` loop of `simulate_combat`,
restricted to the variables that drive the shot timing (damage accumulation
and DOT ticking do not feed back into the timers); fuelled. -/
def simLoop (fuel : ℕ) (duration time_step : ℚ) (tbs : Option ℚ)
    (time_elapsed : ℚ) (shot_timer : Option ℚ) (shots : ℕ) : Option ℕ :=
  match fuel with
  | 0 => none
  | f + 1 =>
    if time_elapsed < duration then
      match fireLoop (f + 1) duration tbs time_elapsed shot_timer shots with
      | none => none
      | some r =>
        simLoop f duration time_step tbs (time_elapsed + time_step)
          (xSub r.1 time_step) r.2
    else some shots

/-- `simulate_combat`'s shot count: `time_elapsed` and `shot_timer` start at
0. -/
def simulate_combat_shots (fuel : ℕ) (duration time_step attack_speed : ℚ) :
    Option ℕ :=
  simLoop fuel duration time_step (timeBetweenShots attack_speed) 0 (some 0) 0

/-! ### Closed-form restatement of `calc_dot`, and concrete configurations -/

/-- The product `calc_dot` actually computes, written as a closed formula:
`0.5 × (damage × base × crit × faction × final_multiplier) × (uncombined
per-element modifier value + 1) × faction × (status chance apportioned to the
element) × attack rate × multishot` — the critical multiplier appears once and
the faction multiplier twice. -/
def calc_dot_closed_form (c : DamageCalculator) (element : ElemName) : ℚ :=
  1 / 2 * (c.weapon_stat.damage * c.get_base * c.get_crit * c.get_faction
      * c.final_buff.final_multiplier)
    * (c.final_buff.elements.get_element element + 1) * c.get_faction
    * (c.get_sc_total * c.combined_elements.get_element element
      / c.combined_elements.total)
    * c.get_as * c.get_ms

/-- A faction dict holding a +100% grineer bonus. -/
def grineerBonus : FactionMap := fun k =>
  match k with
  | .grineer => some 1
  | _ => none

/-- A weapon with guaranteed critical hits (cc = 1, cd = 2), 100% status
chance and pure heat damage; `__post_init__` normalization applied. -/
def w1cx : WeaponStat :=
  WeaponStat.normalize_elements
    { damage := 1, attack_speed := 1, multishot := 1, critical_chance := 1,
      critical_damage := 2, status_chance := 1, elements := { heat := 1 } }

/-- The calculator for `w1cx` with a +100% grineer faction mod against a
grineer target: its DOT product contains the critical multiplier (2) and the
faction multiplier (2) twice. -/
def c1cx : DamageCalculator :=
  mkCalculator w1cx { faction := grineerBonus } {} { faction := .grineer } []

/-- A pure-radiation weapon. -/
def w2cx : WeaponStat :=
  WeaponStat.normalize_elements { elements := { radiation := 1 } }

/-- The calculator for `w2cx` against a TRIDOLON target with the default
all-ones vulnerability vector. -/
def c2cx : DamageCalculator :=
  mkCalculator w2cx {} {} { type := .tridolon } []

/-- The concrete weapon of the spec's test scenario: damage 1, attack speed 1,
multishot 1, cc 0.31, cd 4.2, sc 0.43, pure impact. -/
def w3cx : WeaponStat :=
  WeaponStat.normalize_elements
    { damage := 1, attack_speed := 1, multishot := 1,
      critical_chance := 31 / 100, critical_damage := 21 / 5,
      status_chance := 43 / 100, elements := { impact := 1 } }

/-- `w3cx` with all modifiers zero against a non-boss target. -/
def c3non : DamageCalculator := mkCalculator w3cx {} {} {} []

/-- `w3cx` with all modifiers zero against a TRIDOLON target. -/
def c3boss : DamageCalculator :=
  mkCalculator w3cx {} {} { type := .tridolon } []

/-- A heat DOT instance one second from expiry, dealing 1 damage per tick. -/
def i5cx : DotInstance :=
  { dot_type := .heat, damage_per_tick := 1, remaining_duration := 1 }

/-- A DOT state holding only `i5cx`. -/
def s5cx : DotState := ⟨[(.heat, [i5cx])]⟩

/-- An elemental vector whose only damage is standalone heat. -/
def e8cx : Elements := { heat_standalone := 1 }

/-- The element order heat-then-toxin. -/
def o8cx : List ElemName := [.heat, .toxin]

/-- A calculator whose combined elemental vector has total damage zero: the
modifier vector's `impact = −1` cancels the weapon's normalized `impact = 1`. -/
def c9cx : DamageCalculator :=
  mkCalculator (WeaponStat.normalize_elements {})
    { elements := { impact := -1 } } {} {} []

/-- An enemy carrying a freshly created heat armor-strip debuff and one active
heat DOT instance. -/
def e6cx : EnemyDebuffView :=
  { heat_dots := some [i5cx], base_armor := 1000, current_armor := 1000,
    debuff := some {} }


/-- The elements actually consumed by the pairing loop of
`combine_elements`: the cleaned order minus a trailing unpaired element. -/
def consumed : List BaseElem → List BaseElem
  | e1 :: e2 :: rest => e1 :: e2 :: consumed rest
  | _ => []

/-! ### Helper lemmas: evaluation of the concrete configurations -/

set_option maxRecDepth 4000

/-- `total` of a scaled vector. -/
theorem Elements.total_scale (x : Elements) (k : ℚ) :
    (x.scale k).total = x.total * k := by
  simp [Elements.total, Elements.scale]; ring

/-- Merging two empty faction dicts gives the empty dict. -/
theorem factionAdd_empty : factionAdd factionEmpty factionEmpty = factionEmpty := by
  funext k; simp [factionAdd, factionEmpty]

/-- The empty in-game buff plus the empty static buff is the empty buff. -/
theorem addStatic_empty : ({} : InGameBuff).addStatic {} = {} := by
  unfold InGameBuff.addStatic
  ext <;> simp [Elements.add, factionAdd_empty]

/-- Weapon normalization leaves the spec-scenario weapon `w3cx` unchanged. -/
theorem w3cx_eval : w3cx =
    { damage := 1
      attack_speed := 1
      multishot := 1
      critical_chance := 31 / 100
      critical_damage := 21 / 5
      status_chance := 43 / 100
      elements := { impact := 1 } } := by
  unfold w3cx WeaponStat.normalize_elements
  norm_num [Elements.total]

/-- The merged buff of the spec scenario is the default in-game buff. -/
theorem c3non_fb : c3non.final_buff = {} := by
  simp only [c3non, mkCalculator]
  exact addStatic_empty

/-- `c3boss` shares the merged buff of `c3non`. -/
theorem c3boss_fb : c3boss.final_buff = {} := by
  simp only [c3boss, mkCalculator]
  exact addStatic_empty

/-- The combined elemental vector of the spec scenario is pure impact. -/
theorem c3non_ce : c3non.combined_elements = { impact := 1 } := by
  simp only [c3non, mkCalculator, mkCombinedElements, if_pos rfl]
  rw [show (({} : InGameBuff).addStatic {}).elements = {} by rw [addStatic_empty]]
  rw [show w3cx.elements = { impact := 1 } by rw [w3cx_eval]]
  ext <;> norm_num [Elements.add]

/-- `c3boss` shares the combined vector of `c3non`. -/
theorem c3boss_ce : c3boss.combined_elements = { impact := 1 } := by
  simp only [c3boss, mkCalculator, mkCombinedElements, if_pos rfl]
  rw [show (({} : InGameBuff).addStatic {}).elements = {} by rw [addStatic_empty]]
  rw [show w3cx.elements = { impact := 1 } by rw [w3cx_eval]]
  ext <;> norm_num [Elements.add]


/-- Weapon normalization leaves the crit-capable pure-heat weapon unchanged. -/
theorem w1cx_eval : w1cx =
    { damage := 1
      attack_speed := 1
      multishot := 1
      critical_chance := 1
      critical_damage := 2
      status_chance := 1
      elements := { heat := 1 } } := by
  unfold w1cx WeaponStat.normalize_elements
  norm_num [Elements.total]

/-- The merged buff of `c1cx` carries only the grineer faction bonus. -/
theorem c1cx_fb : c1cx.final_buff = { faction := grineerBonus } := by
  simp only [c1cx, mkCalculator]
  unfold InGameBuff.addStatic
  ext <;> simp [Elements.add]
  funext k
  cases k <;> simp [factionAdd, factionEmpty, grineerBonus]

/-- The combined elemental vector of `c1cx` is pure heat. -/
theorem c1cx_ce : c1cx.combined_elements = { heat := 1 } := by
  simp only [c1cx, mkCalculator, mkCombinedElements, if_pos rfl]
  rw [show (({} : InGameBuff).addStatic { faction := grineerBonus }).elements
      = {} by rw [show ({} : InGameBuff).addStatic { faction := grineerBonus }
        = { faction := grineerBonus } from c1cx_fb]]
  rw [show w1cx.elements = { heat := 1 } by rw [w1cx_eval]]
  ext <;> norm_num [Elements.add]


/-- Weapon normalization leaves the pure-radiation weapon unchanged. -/
theorem w2cx_eval : w2cx = { elements := { radiation := 1 } } := by
  unfold w2cx WeaponStat.normalize_elements
  norm_num [Elements.total]

/-- The merged buff of `c2cx` is the default in-game buff. -/
theorem c2cx_fb : c2cx.final_buff = {} := by
  simp only [c2cx, mkCalculator]
  exact addStatic_empty

/-- The combined elemental vector of `c2cx` is pure radiation. -/
theorem c2cx_ce : c2cx.combined_elements = { radiation := 1 } := by
  simp only [c2cx, mkCalculator, mkCombinedElements, if_pos rfl]
  rw [show (({} : InGameBuff).addStatic {}).elements = {} by rw [addStatic_empty]]
  rw [show w2cx.elements = { radiation := 1 } by rw [w2cx_eval]]
  ext <;> norm_num [Elements.add]

/-- The combined elemental vector of `c9cx` is identically zero: the modifier
impact −1 cancels the normalized weapon impact 1. -/
theorem c9cx_ce : c9cx.combined_elements = {} := by
  simp only [c9cx, mkCalculator, mkCombinedElements, if_pos rfl]
  rw [show (WeaponStat.normalize_elements {}).elements = { impact := 1 } by
    unfold WeaponStat.normalize_elements
    norm_num [Elements.total]]
  unfold InGameBuff.addStatic
  ext <;> norm_num [Elements.add]

/-- The total of the zero vector is zero. -/
theorem total_zero : ({} : Elements).total = 0 := by
  norm_num [Elements.total]

/-- `calc_dot` written as one closed-form product, for any calculator state
whose combined elemental total is non-zero. -/
theorem calc_dot_eq (c : DamageCalculator) (e : ElemName)
    (h : c.combined_elements.total ≠ 0) :
    c.calc_dot e = some (calc_dot_closed_form c e) := by
  unfold DamageCalculator.calc_dot
  rw [show c.get_sc_elem e = some (c.get_sc_total
      * c.combined_elements.get_element e / c.combined_elements.total) from by
    unfold DamageCalculator.get_sc_elem
    rw [if_neg h]]
  simp only [List.foldl, calc_dot_closed_form, Option.some.injEq,
    DamageCalculator.calc_single_hit_without_elements]
  ring


/-! ### Claim theorems -/

/-- C1 (counterexample): for the concrete crit-capable weapon `w1cx`
(cc = 1, cd = 2) with a +100% grineer faction mod against a grineer target,
`calc_dot("heat")` returns 4, while the formula claimed by the spec — no
critical-hit factor and exactly one faction factor — gives 1. -/
theorem C1_counterexample :
    DamageCalculator.calc_dot c1cx .heat = some 4 ∧
    calc_dot_spec c1cx .heat = some 1 ∧
    some (4 : ℚ) ≠ some (1 : ℚ) := by
  have h1 : c1cx.combined_elements.total ≠ 0 := by
    rw [c1cx_ce]; norm_num [Elements.total]
  have hsce : c1cx.get_sc_elem .heat = some (c1cx.get_sc_total
      * c1cx.combined_elements.get_element .heat / c1cx.combined_elements.total) := by
    unfold DamageCalculator.get_sc_elem
    rw [if_neg h1]
  refine ⟨?_, ?_, by norm_num⟩
  · rw [calc_dot_eq c1cx .heat h1]
    unfold calc_dot_closed_form DamageCalculator.get_base
      DamageCalculator.get_crit DamageCalculator.get_cc DamageCalculator.get_cd
      DamageCalculator.get_faction DamageCalculator.get_as DamageCalculator.get_ms
      DamageCalculator.get_sc_total
    rw [c1cx_fb, c1cx_ce, show c1cx.weapon_stat = w1cx from rfl, w1cx_eval,
      show c1cx.enemy_stat = { faction := .grineer } from rfl]
    norm_num [Elements.get_element, Elements.get, Elements.total, factionGet,
      grineerBonus]
  · unfold calc_dot_spec
    rw [hsce]
    unfold DamageCalculator.get_base DamageCalculator.get_faction
      DamageCalculator.get_as DamageCalculator.get_ms DamageCalculator.get_sc_total
    rw [c1cx_fb, c1cx_ce, show c1cx.weapon_stat = w1cx from rfl, w1cx_eval,
      show c1cx.enemy_stat = { faction := .grineer } from rfl]
    norm_num [Elements.get_element, Elements.get, Elements.total, factionGet,
      grineerBonus]

/-- C1 (amended): whenever the combined elemental total is non-zero (so the
status-chance apportionment does not divide by zero), `calc_dot(element)`
equals `0.5 × (weapon.damage × (1 + merged.damage) × crit multiplier ×
(1 + faction bonus) × final_multiplier) × (uncombined per-element modifier
value + 1) × (1 + faction bonus) × apportioned status chance × attack rate ×
multishot` — the critical-hit multiplier appears once and the faction factor
twice. -/
theorem C1_amended (c : DamageCalculator) (element : ElemName)
    (h : c.combined_elements.total ≠ 0) :
    c.calc_dot element = some (calc_dot_closed_form c element) :=
  calc_dot_eq c element h

/-- C1 (witness): the amended equation applied to the concrete calculator
`c1cx` at the heat element. -/
theorem C1_witness :
    c1cx.combined_elements.total ≠ 0 ∧
    DamageCalculator.calc_dot c1cx .heat
      = some (calc_dot_closed_form c1cx .heat) := by
  have h1 : c1cx.combined_elements.total ≠ 0 := by
    rw [c1cx_ce]; norm_num [Elements.total]
  exact ⟨h1, C1_amended c1cx .heat h1⟩

/-- C2 (evaluation at the failing input): against a TRIDOLON target with
all-ones vulnerabilities and a pure-radiation combined vector, `calc_elem`
returns the plain vulnerability-weighted sum 1 — no 1.5× radiation/cold
scaling is applied, contradicting both the claim and the function's own
docstring. -/
theorem C2_eval :
    DamageCalculator.calc_elem c2cx = 1 ∧
    c2cx.enemy_stat.type = EnemyType.tridolon ∧
    c2cx.combined_elements.radiation = 1 ∧
    (1 : ℚ) ≠ 3 / 2 := by
  refine ⟨?_, rfl, by rw [c2cx_ce], by norm_num⟩
  unfold DamageCalculator.calc_elem
  rw [c2cx_ce, show c2cx.enemy_stat.elements_vulnerability = Elements.const 1 from rfl]
  norm_num [Elements.total_with_vulnerability, Elements.const]

/-- C3: for the spec-scenario weapon (damage 1, attack speed 1, multishot 1,
cc 0.31, cd 4.2, sc 0.43, pure impact) with all modifiers zero, the critical
multiplier is 0.31×(4.2−1)+1 = 1.992 and the non-boss direct DPS is 1.992;
against a TRIDOLON target the non-crit penalty 1 − (1 − 0.31)×0.5 = 0.655 is
additionally multiplied in, giving 1.992 × 0.655 = 1.30476 ≈ 1.305; and the
penalty is 1 whenever the buffed critical chance is at least 1. -/
theorem C3_scenario :
    DamageCalculator.get_crit c3non = 249 / 125 ∧
    DamageCalculator.calc_direct_dps c3non = 249 / 125 ∧
    DamageCalculator.get_eidolon_non_crit_penalty c3boss = 131 / 200 ∧
    DamageCalculator.calc_direct_dps c3boss = 32619 / 25000 ∧
    (∀ c : DamageCalculator,
      1 ≤ c.weapon_stat.critical_chance * (1 + c.final_buff.critical_chance) →
      c.get_eidolon_non_crit_penalty = 1) := by
  have hcrit : DamageCalculator.get_crit c3non = 249 / 125 := by
    unfold DamageCalculator.get_crit DamageCalculator.get_cc DamageCalculator.get_cd
    rw [c3non_fb, show c3non.weapon_stat = w3cx from rfl, w3cx_eval]
    norm_num
  have hcritb : DamageCalculator.get_crit c3boss = 249 / 125 := by
    unfold DamageCalculator.get_crit DamageCalculator.get_cc DamageCalculator.get_cd
    rw [c3boss_fb, show c3boss.weapon_stat = w3cx from rfl, w3cx_eval]
    norm_num
  have helem : DamageCalculator.calc_elem c3non = 1 := by
    unfold DamageCalculator.calc_elem
    rw [c3non_ce, show c3non.enemy_stat.elements_vulnerability = Elements.const 1 from rfl]
    norm_num [Elements.total_with_vulnerability, Elements.const]
  have helemb : DamageCalculator.calc_elem c3boss = 1 := by
    unfold DamageCalculator.calc_elem
    rw [c3boss_ce, show c3boss.enemy_stat.elements_vulnerability = Elements.const 1 from rfl]
    norm_num [Elements.total_with_vulnerability, Elements.const]
  have hpen : DamageCalculator.get_eidolon_non_crit_penalty c3boss = 131 / 200 := by
    unfold DamageCalculator.get_eidolon_non_crit_penalty
    rw [c3boss_fb, show c3boss.weapon_stat = w3cx from rfl, w3cx_eval]
    norm_num
  have hsh : DamageCalculator.calc_single_hit c3non = 249 / 125 := by
    unfold DamageCalculator.calc_single_hit
      DamageCalculator.calc_single_hit_without_elements DamageCalculator.get_base
      DamageCalculator.get_faction
    rw [helem, hcrit]
    rw [c3non_fb, show c3non.weapon_stat = w3cx from rfl, w3cx_eval,
      show c3non.enemy_stat.faction = .noneF from rfl]
    norm_num [factionGet, factionEmpty]
  have hshb : DamageCalculator.calc_single_hit c3boss = 249 / 125 := by
    unfold DamageCalculator.calc_single_hit
      DamageCalculator.calc_single_hit_without_elements DamageCalculator.get_base
      DamageCalculator.get_faction
    rw [helemb, hcritb]
    rw [c3boss_fb, show c3boss.weapon_stat = w3cx from rfl, w3cx_eval,
      show c3boss.enemy_stat.faction = .noneF from rfl]
    norm_num [factionGet, factionEmpty]
  have hasms : DamageCalculator.get_as c3non * DamageCalculator.get_ms c3non = 1 := by
    unfold DamageCalculator.get_as DamageCalculator.get_ms
    rw [c3non_fb, show c3non.weapon_stat = w3cx from rfl, w3cx_eval]
    norm_num
  have hasmsb : DamageCalculator.get_as c3boss * DamageCalculator.get_ms c3boss = 1 := by
    unfold DamageCalculator.get_as DamageCalculator.get_ms
    rw [c3boss_fb, show c3boss.weapon_stat = w3cx from rfl, w3cx_eval]
    norm_num
  refine ⟨hcrit, ?_, hpen, ?_, fun c h => ?_⟩
  · unfold DamageCalculator.calc_direct_dps
    rw [show c3non.enemy_stat.type = EnemyType.noneT from rfl]
    simp only [List.foldl, List.append_nil, reduceCtorEq, if_false]
    rw [show (1 : ℚ) * DamageCalculator.calc_single_hit c3non
        * (DamageCalculator.get_as c3non * DamageCalculator.get_ms c3non)
        = DamageCalculator.calc_single_hit c3non
        * (DamageCalculator.get_as c3non * DamageCalculator.get_ms c3non) by ring]
    rw [hsh, hasms]
    norm_num
  · unfold DamageCalculator.calc_direct_dps
    rw [show c3boss.enemy_stat.type = EnemyType.tridolon from rfl]
    simp only [List.foldl, List.append_nil, if_true]
    rw [show (1 : ℚ) * DamageCalculator.calc_single_hit c3boss
        * (DamageCalculator.get_as c3boss * DamageCalculator.get_ms c3boss)
        * DamageCalculator.get_eidolon_non_crit_penalty c3boss
        = DamageCalculator.calc_single_hit c3boss
        * (DamageCalculator.get_as c3boss * DamageCalculator.get_ms c3boss)
        * DamageCalculator.get_eidolon_non_crit_penalty c3boss by ring]
    rw [hshb, hasmsb, hpen]
    norm_num
  · unfold DamageCalculator.get_eidolon_non_crit_penalty
    rw [if_neg (not_lt.mpr h)]

/-- C3 (witness): the penalty-cap clause applied to the calculator `c1cx`,
whose buffed critical chance is exactly 1. -/
theorem C3_witness : DamageCalculator.get_eidolon_non_crit_penalty c1cx = 1 := by
  refine C3_scenario.2.2.2.2 c1cx ?_
  rw [c1cx_fb, show c1cx.weapon_stat = w1cx from rfl, w1cx_eval]
  norm_num

/-- C5 (evaluation at the failing input): ticking a state holding one heat
instance (1 damage per tick, tick rate 1, 1 s remaining) by `delta = 2`
computes 1 × 2 × 1 = 2 damage for the instance, yet `tick_all` deletes the
emptied heat key and returns an empty `damage_dealt` dict — the damage accrued
by the instance during its final tick is dropped from the result.  The
invariant halves of the claim do hold here: the expired instance is removed
and no key maps to an empty list. -/
theorem C5_eval :
    tickList 2 [i5cx] = (2, []) ∧
    (DotState.tick_all s5cx 2).1.active_dots = [] ∧
    (DotState.tick_all s5cx 2).2 = [] := by
  have ht : tickList 2 [i5cx] = (2, []) := by
    unfold tickList tickList i5cx DotInstance.tick
    norm_num [DotInstance.is_active]
  refine ⟨ht, ?_, ?_⟩
  · unfold DotState.tick_all s5cx tickEntries
    rw [ht]
    norm_num [tickEntries]
  · unfold DotState.tick_all s5cx tickEntries
    rw [ht]
    norm_num [tickEntries]

/-- C10: after `__post_init__` normalization the weapon's elemental vector
sums to 1: a zero-total vector is replaced by pure impact, and any other
vector is scaled by the reciprocal of its total. -/
theorem C10_normalize (w : WeaponStat) :
    (w.normalize_elements).elements.total = 1 ∧
    (w.elements.total = 0 →
      (w.normalize_elements).elements = { impact := 1 }) ∧
    (w.elements.total ≠ 0 →
      (w.normalize_elements).elements = w.elements.scale (1 / w.elements.total)) := by
  unfold WeaponStat.normalize_elements
  by_cases h0 : w.elements.total = 0
  · refine ⟨?_, fun _ => by simp [h0], fun h => absurd h0 h⟩
    simp only [h0, if_pos rfl]
    norm_num [Elements.total]
  · by_cases h1 : w.elements.total = 1
    · refine ⟨?_, fun h => absurd h h0, fun _ => ?_⟩
      · simp [h0, h1]
      · simp only [h0, h1, if_neg, ite_false, ite_true]
        ext <;> simp [Elements.scale]
    · refine ⟨?_, fun h => absurd h h0, fun _ => ?_⟩
      · simp only [h0, h1, ite_false]
        rw [Elements.total_scale]
        field_simp
      · simp [h0, h1]

/-- C10 (witness): the default weapon's elemental vector totals 0 and is
replaced by pure impact. -/
theorem C10_witness :
    ({} : WeaponStat).elements.total = 0 ∧
    (WeaponStat.normalize_elements {}).elements = { impact := 1 } :=
  ⟨total_zero, (C10_normalize {}).2.1 total_zero⟩


/-- Updating the entry at a key, read back at any key. -/
theorem getDots_updateDots (t q : DotType) (f : List DotInstance → List DotInstance) :
    ∀ m : DotMap, getDots (updateDots t f m) q
      = if q = t then (getDots m t).map f else getDots m q
  | [] => by simp [updateDots, getDots]
  | p :: rest => by
    by_cases hp : p.1 = t
    · by_cases hq : q = t
      · have hpq : p.1 = q := hp.trans hq.symm
        simp [updateDots, getDots, hp, hq, hpq]
      · have hpq : ¬ p.1 = q := fun hx => hq (hx.symm.trans hp)
        have htq : ¬ t = q := fun hx => hq hx.symm
        simp [updateDots, getDots, hp, hq, hpq, htq, getDots_updateDots t q f rest]
    · by_cases hpq : p.1 = q
      · have hq : ¬ q = t := fun h => hp (hpq.trans h)
        simp [updateDots, getDots, hp, hpq, hq]
      · simp [updateDots, getDots, hp, hpq, getDots_updateDots t q f rest]

/-- Appending a fresh key, read back at any key. -/
theorem getDots_append (t q : DotType) (x : List DotInstance) :
    ∀ m : DotMap, getDots m t = none →
      getDots (m ++ [(t, x)]) q
        = if q = t then some x else getDots m q
  | [] => by intro _; by_cases hq : q = t <;> simp [getDots, hq, Ne.symm]
  | p :: rest => by
    intro h
    by_cases hp : p.1 = q
    · have hpt : ¬ p.1 = t := by
        intro hx
        simp [getDots, hx] at h
      have hq : ¬ q = t := fun hx => hpt (hp.trans hx)
      simp [getDots, hp, hq]
    · have h2 : getDots rest t = none := by
        by_cases hpt : p.1 = t
        · simp [getDots, hpt] at h
        · simpa [getDots, hpt] using h
      simp [getDots, hp, getDots_append t q x rest h2]

/-- `ensureKey`, read back at any key. -/
theorem getDots_ensureKey (t q : DotType) (m : DotMap) :
    getDots (ensureKey t m) q =
      match getDots m t with
      | some _ => getDots m q
      | none => if q = t then some [] else getDots m q := by
  unfold ensureKey
  cases h : getDots m t with
  | some l => simp
  | none => simpa using getDots_append t q [] m h

/-- `add_dot`, read back at any key: the list at the proc's element gains the
new instance (after the behavior-specific rewrite of the existing instances),
every other key is untouched. -/
theorem getDots_add_dot (s : DotState) (inst : DotInstance)
    (behavior : DotBehavior) (q : DotType) :
    getDots (s.add_dot inst behavior).active_dots q
      = if q = inst.dot_type then
          some ((match behavior with
            | .refresh_all => ((getDots s.active_dots inst.dot_type).getD []).map
                (fun d => { d with remaining_duration := inst.total_duration })
            | .independent => (getDots s.active_dots inst.dot_type).getD [])
              ++ [inst])
        else getDots s.active_dots q := by
  simp only [DotState.add_dot]
  by_cases hq : q = inst.dot_type
  · subst hq
    rw [if_pos rfl, getDots_updateDots, if_pos rfl, getDots_ensureKey]
    cases h : getDots s.active_dots inst.dot_type with
    | some l => cases behavior <;> simp
    | none => cases behavior <;> simp
  · rw [if_neg hq, getDots_updateDots, if_neg hq, getDots_ensureKey]
    cases h : getDots s.active_dots inst.dot_type with
    | some l => simp
    | none => simp [if_neg hq]


/-- C4: `add_dot` under independent behavior appends the new instance and
leaves every existing instance (and every other element's list) untouched;
under refresh-all behavior it first resets every existing instance of that
element to the new instance's total duration and then appends.  Consequently
three independent procs of one element stack as three instances each keeping
its own countdown, while after a third refresh-behavior proc all three
instances carry the most recent total duration. -/
theorem C4_add_dot :
    (∀ (s : DotState) (inst : DotInstance) (q : DotType),
      getDots (s.add_dot inst .independent).active_dots q
        = if q = inst.dot_type
          then some (((getDots s.active_dots q).getD []) ++ [inst])
          else getDots s.active_dots q) ∧
    (∀ (s : DotState) (inst : DotInstance) (q : DotType),
      getDots (s.add_dot inst .refresh_all).active_dots q
        = if q = inst.dot_type
          then some ((((getDots s.active_dots q).getD []).map
              (fun d => { d with remaining_duration := inst.total_duration }))
            ++ [inst])
          else getDots s.active_dots q) ∧
    (∀ a1 a2 a3 r1 r2 r3 tr1 tr2 tr3 d1 d2 d3 : ℚ,
      getDots ((((⟨[]⟩ : DotState).add_dot ⟨.toxin, a1, r1, tr1, d1⟩
            .independent).add_dot ⟨.toxin, a2, r2, tr2, d2⟩
            .independent).add_dot ⟨.toxin, a3, r3, tr3, d3⟩
            .independent).active_dots .toxin
        = some [⟨.toxin, a1, r1, tr1, d1⟩, ⟨.toxin, a2, r2, tr2, d2⟩,
            ⟨.toxin, a3, r3, tr3, d3⟩]) ∧
    (∀ a1 a2 a3 tr1 tr2 tr3 d1 d2 d3 : ℚ,
      getDots ((((⟨[]⟩ : DotState).add_dot ⟨.heat, a1, d1, tr1, d1⟩
            .refresh_all).add_dot ⟨.heat, a2, d2, tr2, d2⟩
            .refresh_all).add_dot ⟨.heat, a3, d3, tr3, d3⟩
            .refresh_all).active_dots .heat
        = some [⟨.heat, a1, d3, tr1, d1⟩, ⟨.heat, a2, d3, tr2, d2⟩,
            ⟨.heat, a3, d3, tr3, d3⟩]) := by
  refine ⟨fun s inst q => ?_, fun s inst q => ?_, fun _ _ _ _ _ _ _ _ _ _ _ _ => ?_,
    fun _ _ _ _ _ _ _ _ _ => ?_⟩
  · rw [getDots_add_dot]
    by_cases hq : q = inst.dot_type
    · subst hq; simp
    · simp [hq]
  · rw [getDots_add_dot]
    by_cases hq : q = inst.dot_type
    · subst hq; simp
    · simp [hq]
  · simp [getDots_add_dot, getDots]
  · simp [getDots_add_dot, getDots]


/-- Componentwise addition of elemental vectors is associative. -/
theorem Elements.add_assoc (a b c : Elements) :
    (a.add b).add c = a.add (b.add c) := by
  unfold Elements.add
  ext <;> ring

/-- The dict merge of `_add_field` is associative. -/
theorem factionAdd_assoc (f g h : FactionMap) :
    factionAdd (factionAdd f g) h = factionAdd f (factionAdd g h) := by
  funext k
  unfold factionAdd
  cases f k <;> cases g k <;> cases h k <;> simp [add_assoc]

/-- C7: bundle combination adds each scalar field and merges the map-valued
fields (the faction dict sums shared keys and keeps unique keys; the
elemental vector adds componentwise); a field missing in the second operand
falls back to the first operand's value unchanged; and the combination is
associative — both for three `_GeneralStat` bundles and for an `InGameBuff`
merged with two `StaticBuff`s, the grouping does not matter on any scalar or
map field. -/
theorem C7_modifier_algebra :
    (∀ a b : GeneralStat,
      (a.add b).damage = a.damage + b.damage ∧
      (a.add b).attack_speed = a.attack_speed + b.attack_speed ∧
      (a.add b).multishot = a.multishot + b.multishot ∧
      (a.add b).critical_chance = a.critical_chance + b.critical_chance ∧
      (a.add b).critical_damage = a.critical_damage + b.critical_damage ∧
      (a.add b).status_chance = a.status_chance + b.status_chance ∧
      (a.add b).status_duration = a.status_duration + b.status_duration ∧
      (a.add b).elements = a.elements.add b.elements ∧
      (a.add b).faction = factionAdd a.faction b.faction) ∧
    (∀ (f g : FactionMap) (k : EnemyFaction),
      factionGet (factionAdd f g) k = factionGet f k + factionGet g k ∧
      ((factionAdd f g) k = none ↔ f k = none ∧ g k = none)) ∧
    (∀ (a : InGameBuff) (b : StaticBuff),
      (a.addStatic b).galvanized_shot = a.galvanized_shot ∧
      (a.addStatic b).galvanized_diffusion = a.galvanized_diffusion ∧
      (a.addStatic b).galvanized_aptitude = a.galvanized_aptitude ∧
      (a.addStatic b).final_additive_cd = a.final_additive_cd ∧
      (a.addStatic b).num_debuffs = a.num_debuffs ∧
      (a.addStatic b).final_multiplier = a.final_multiplier ∧
      (a.addStatic b).callbacks = a.callbacks) ∧
    (∀ a b c : GeneralStat, (a.add b).add c = a.add (b.add c)) ∧
    (∀ (a : InGameBuff) (b c : StaticBuff),
      (a.addStatic b).addStatic c = a.addStatic (b.add c)) := by
  refine ⟨fun a b => ⟨rfl, rfl, rfl, rfl, rfl, rfl, rfl, rfl, rfl⟩,
    fun f g k => ⟨?_, ?_⟩, fun a b => ⟨rfl, rfl, rfl, rfl, rfl, rfl, rfl⟩,
    fun a b c => ?_, fun a b c => ?_⟩
  · unfold factionGet factionAdd
    cases f k <;> cases g k <;> simp
  · unfold factionAdd
    cases f k <;> cases g k <;> simp
  · unfold GeneralStat.add
    ext <;> simp [Elements.add, factionAdd_assoc, add_assoc]
  · unfold InGameBuff.addStatic GeneralStat.add
    ext <;> simp [Elements.add, factionAdd_assoc, add_assoc]


/-- With an infinite shot timer the firing loop exits immediately. -/
theorem fireLoop_inf (fuel : ℕ) (duration : ℚ) (tbs : Option ℚ)
    (time_elapsed : ℚ) (shots : ℕ) (hf : 0 < fuel) :
    fireLoop fuel duration tbs time_elapsed none shots = some (none, shots) := by
  cases fuel with
  | zero => exact absurd hf (by simp)
  | succ f => simp [fireLoop, xLeZero]

/-- Once the shot timer is infinite, the outer loop fires no further shot:
whatever shot count the loop returns is the one it started with. -/
theorem simLoop_inf (duration time_step : ℚ) (tbs : Option ℚ) :
    ∀ (fuel : ℕ) (time_elapsed : ℚ) (shots n : ℕ),
      simLoop fuel duration time_step tbs time_elapsed none shots = some n →
      n = shots
  | 0, te, s, n => by simp [simLoop]
  | f + 1, te, s, n => by
    intro h
    rw [simLoop] at h
    by_cases hte : te < duration
    · rw [if_pos hte, fireLoop_inf (f + 1) duration tbs te s (Nat.succ_pos f)] at h
      exact simLoop_inf duration time_step tbs f (te + time_step) s n (by
        simpa [xSub] using h)
    · rw [if_neg hte] at h
      exact (Option.some.injEq _ _ ▸ h).symm

/-- With `attack_speed = 0` the inter-shot interval is infinite and the
firing loop of the first time step fires exactly one shot (the shot timer
starts at 0), after which the timer is infinite. -/
theorem fireLoop_zero_as (f : ℕ) (duration time_elapsed : ℚ) (shots : ℕ)
    (hd : time_elapsed < duration) :
    fireLoop (f + 2) duration none time_elapsed (some 0) shots
      = some (none, shots + 1) := by
  rw [fireLoop, if_pos ⟨by simp [xLeZero], hd⟩]
  simpa [xAdd] using fireLoop_inf (f + 1) duration none time_elapsed (shots + 1)
    (Nat.succ_pos f)

/-- C9 (counterexample): with zero attack speed the simulator still fires one
shot at t = 0 (shot count 1, not the claimed 0); and `_get_sc(element)` on a
state whose combined elemental vector totals 0 raises (returns no value)
instead of returning a zero contribution. -/
theorem C9_counterexample :
    simulate_combat_shots 5 2 1 0 = some 1 ∧
    some (1 : ℕ) ≠ some 0 ∧
    DamageCalculator.get_sc_elem c9cx .heat = none ∧
    c9cx.combined_elements.total = 0 := by
  have h0 : c9cx.combined_elements.total = 0 := by
    rw [c9cx_ce]; exact total_zero
  refine ⟨?_, by simp, ?_, h0⟩
  · norm_num [simulate_combat_shots, simLoop, fireLoop, timeBetweenShots,
      xAdd, xSub, xLeZero]
  · unfold DamageCalculator.get_sc_elem
    rw [if_pos h0]

/-- C9 (amended): with zero attack speed the inter-shot interval is treated
as infinite and exactly one shot is fired, at t = 0 (whenever the duration is
positive and the run terminates); `_get_sc(element)` raises a division error
(yields no value) exactly when the combined elemental total is 0, and
otherwise returns the apportioned status chance without error. -/
theorem C9_amended :
    timeBetweenShots 0 = none ∧
    (∀ (fuel : ℕ) (duration time_step : ℚ) (n : ℕ),
      0 < duration →
      simulate_combat_shots fuel duration time_step 0 = some n →
      n = 1) ∧
    (∀ (c : DamageCalculator) (e : ElemName),
      c.combined_elements.total = 0 → c.get_sc_elem e = none) ∧
    (∀ (c : DamageCalculator) (e : ElemName),
      c.combined_elements.total ≠ 0 →
      c.get_sc_elem e = some (c.get_sc_total
        * c.combined_elements.get_element e / c.combined_elements.total)) := by
  refine ⟨by norm_num [timeBetweenShots], fun fuel duration time_step n hd h => ?_,
    fun c e h => ?_, fun c e h => ?_⟩
  · match fuel, h with
    | f + 1, h => ?_
    rw [simulate_combat_shots, show timeBetweenShots 0 = none by
      norm_num [timeBetweenShots], simLoop, if_pos hd] at h
    match f, h with
    | 0, h =>
      have h1 : fireLoop 1 duration none 0 (some 0) 0 = none := by
        simp [fireLoop, xLeZero, hd]
      rw [h1] at h
      exact absurd h (by simp)
    | f + 1, h =>
      rw [fireLoop_zero_as f duration 0 0 hd] at h
      exact simLoop_inf duration time_step none (f + 1) (0 + time_step) 1 n
        (by simpa [xSub] using h)
  · unfold DamageCalculator.get_sc_elem
    rw [if_pos h]
  · unfold DamageCalculator.get_sc_elem
    rw [if_neg h]

/-- C9 (witness): the amended statement applied at fuel 5, duration 2, step 1
and at the zero-total calculator `c9cx`. -/
theorem C9_witness :
    simulate_combat_shots 5 2 1 0 = some 1 ∧
    DamageCalculator.get_sc_elem c9cx .heat = none := by
  have hs : simulate_combat_shots 5 2 1 0 = some 1 := by
    norm_num [simulate_combat_shots, simLoop, fireLoop, timeBetweenShots,
      xAdd, xSub, xLeZero]
  have h1 : (1 : ℕ) = 1 := C9_amended.2.1 5 2 1 1 (by norm_num) hs
  have h0 : c9cx.combined_elements.total = 0 := by
    rw [c9cx_ce]; exact total_zero
  exact ⟨hs, C9_amended.2.2.1 c9cx .heat h0⟩


/-- C6: per update of the debuff manager — (advance) while heat DOT instances
exist and the strip interval has elapsed, the stage steps up by one and the
transition time is recorded; (cap) the stage never exceeds the maximum stage
4; (recede) while no heat DOT instances exist, the recovery timer has been
initialised and the recovery interval has elapsed, the stage steps down by
one; and (persistence) the debuff is removed from the enemy exactly when no
heat DOTs remain and the stage has returned to 0 — in every other state it
stays in the active-debuff set, through the whole recovery tail. -/
theorem C6_armor_strip :
    (∀ (e : EnemyDebuffView) (d : HeatStripState) (t : ℚ),
      e.debuff = some d →
      0 < (e.heat_dots.getD []).length →
      d.strip_stage < 4 →
      STRIP_INTERVAL ≤ t - d.last_tick_time →
      (update_debuffs e t).debuff = some { d with
        strip_stage := d.strip_stage + 1
        last_tick_time := t }) ∧
    (∀ (e : EnemyDebuffView) (d : HeatStripState) (t : ℚ),
      e.debuff = some d → d.strip_stage ≤ 4 →
      ∀ d2, (update_debuffs e t).debuff = some d2 → d2.strip_stage ≤ 4) ∧
    (∀ (e : EnemyDebuffView) (d : HeatStripState) (t : ℚ),
      e.debuff = some d →
      e.heat_dots = none →
      0 < d.strip_stage →
      0 ≤ d.last_recovery_tick →
      RECOVERY_INTERVAL ≤ t - d.last_tick_time →
      (update_debuffs e t).debuff = some { d with
        strip_stage := d.strip_stage - 1
        last_tick_time := t }) ∧
    (∀ (e : EnemyDebuffView) (d : HeatStripState) (t : ℚ),
      e.debuff = some d →
      ((update_debuffs e t).debuff = none ↔
        (e.heat_dots = none ∧ d.strip_stage = 0))) := by
  refine ⟨fun e d t hd hheat hstage hint => ?_, fun e d t hd hcap d2 h2 => ?_,
    fun e d t hd hheat hstage hinit hint => ?_, fun e d t hd => ?_⟩
  · have hne : ¬ shouldExpire e d := by
      rintro ⟨hn, _⟩
      rw [hn] at hheat
      simp at hheat
    simp only [update_debuffs, hd]
    rw [if_neg hne]
    simp only [heatDebuffTick, if_pos hheat, applyStrip,
      if_neg (by omega : ¬ 4 ≤ d.strip_stage), if_neg (not_lt.mpr hint)]
  · simp only [update_debuffs, hd] at h2
    by_cases hex : shouldExpire e d
    · rw [if_pos hex] at h2
      simp at h2
    · rw [if_neg hex] at h2
      simp only [Option.some.injEq] at h2
      subst h2
      unfold heatDebuffTick applyStrip applyRecovery
      repeat' split
      all_goals try simp_all
      all_goals omega
  · have hne : ¬ shouldExpire e d := by
      rintro ⟨_, h0⟩
      omega
    simp only [update_debuffs, hd]
    rw [if_neg hne]
    have hlen : ¬ 0 < (e.heat_dots.getD []).length := by
      rw [hheat]; simp
    simp only [heatDebuffTick, if_neg hlen, applyRecovery,
      if_neg (by omega : ¬ d.strip_stage = 0),
      if_neg (not_lt.mpr hinit), if_neg (not_lt.mpr hint)]
  · simp only [update_debuffs, hd]
    by_cases hex : shouldExpire e d
    · rw [if_pos hex]
      simpa [shouldExpire] using hex
    · rw [if_neg hex]
      constructor
      · intro h
        simp at h
      · intro h
        exact absurd h hex


/-- C6 (witness): a fresh debuff on an enemy with one heat DOT advances to
stage 1 at t = 1. -/
theorem C6_witness :
    (update_debuffs e6cx 1).debuff = some { strip_stage := 1, last_tick_time := 1, last_recovery_tick := -1 } := by
  have h := C6_armor_strip.1 e6cx {} 1 rfl (by simp [e6cx]) (by norm_num)
    (by norm_num [STRIP_INTERVAL])
  simpa using h

/-- Writing a field back to its own value is the identity. -/
theorem set_get_self (x : Elements) (n : ElemName) : x.set n (x.get n) = x := by
  cases n <;> rfl

/-- A `combineStep` whose two inputs are already zero changes nothing. -/
theorem combineStep_self (y : Elements) (e1 e2 : BaseElem)
    (h1 : y.get e1.toName = 0) (h2 : y.get e2.toName = 0) :
    combineStep y e1 e2 = y := by
  cases e1 <;> cases e2 <;>
    (simp only [BaseElem.toName, Elements.get] at h1 h2 <;>
      (ext <;> simp_all [combineStep, pairCombine, BaseElem.toName,
        Elements.get, Elements.set]))

/-- `combineStep` zeroes its first input. -/
theorem combineStep_zeroes_left (y : Elements) (e1 e2 : BaseElem) :
    (combineStep y e1 e2).get e1.toName = 0 := by
  cases e1 <;> cases e2 <;> rfl

/-- `combineStep` zeroes its second input. -/
theorem combineStep_zeroes_right (y : Elements) (e1 e2 : BaseElem) :
    (combineStep y e1 e2).get e2.toName = 0 := by
  cases e1 <;> cases e2 <;> rfl

/-- `combineStep` keeps an already-zero basic element at zero. -/
theorem combineStep_preserves_zero (y : Elements) (e1 e2 b : BaseElem)
    (h : y.get b.toName = 0) : (combineStep y e1 e2).get b.toName = 0 := by
  cases b <;> cases e1 <;> cases e2 <;>
    first
    | rfl
    | simpa [combineStep, pairCombine, BaseElem.toName, Elements.get,
        Elements.set] using h

/-- `combineStep` never writes a standalone field. -/
theorem combineStep_standalones (y : Elements) (e1 e2 : BaseElem) :
    (combineStep y e1 e2).cold_standalone = y.cold_standalone ∧
    (combineStep y e1 e2).electricity_standalone = y.electricity_standalone ∧
    (combineStep y e1 e2).heat_standalone = y.heat_standalone ∧
    (combineStep y e1 e2).toxin_standalone = y.toxin_standalone := by
  cases e1 <;> cases e2 <;> exact ⟨rfl, rfl, rfl, rfl⟩

/-- The pairing loop keeps an already-zero basic element at zero. -/
theorem combineLoop_preserves_zero : ∀ (bs : List BaseElem) (y : Elements)
    (b : BaseElem), y.get b.toName = 0 → (combineLoop y bs).get b.toName = 0
  | [], _, _, h => h
  | [_], _, _, h => h
  | e1 :: e2 :: rest, y, b, h =>
    combineLoop_preserves_zero rest (combineStep y e1 e2) b
      (combineStep_preserves_zero y e1 e2 b h)

/-- After the pairing loop, every consumed basic element is zero. -/
theorem combineLoop_zeroes : ∀ (bs : List BaseElem) (y : Elements)
    (b : BaseElem), b ∈ consumed bs → (combineLoop y bs).get b.toName = 0
  | [], _, b, h => absurd h (by simp [consumed])
  | [e], _, b, h => absurd h (by simp [consumed])
  | e1 :: e2 :: rest, y, b, h => by
    have hmem : b = e1 ∨ b = e2 ∨ b ∈ consumed rest := by
      simpa [consumed] using h
    show (combineLoop (combineStep y e1 e2) rest).get b.toName = 0
    rcases hmem with rfl | rfl | hm
    · exact combineLoop_preserves_zero rest _ b (combineStep_zeroes_left y b e2)
    · exact combineLoop_preserves_zero rest _ b (combineStep_zeroes_right y e1 b)
    · exact combineLoop_zeroes rest _ b hm

/-- The pairing loop fixes any vector whose consumed elements are all zero. -/
theorem combineLoop_fixed : ∀ (bs : List BaseElem) (y : Elements),
    (∀ b ∈ consumed bs, y.get b.toName = 0) → combineLoop y bs = y
  | [], _, _ => rfl
  | [_], _, _ => rfl
  | e1 :: e2 :: rest, y, h => by
    have h1 : y.get e1.toName = 0 := h e1 (by simp [consumed])
    have h2 : y.get e2.toName = 0 := h e2 (by simp [consumed])
    show combineLoop (combineStep y e1 e2) rest = y
    rw [combineStep_self y e1 e2 h1 h2]
    exact combineLoop_fixed rest y (fun b hb =>
      h b (by simp only [consumed, List.mem_cons]; tauto))

/-- The pairing loop leaves the standalone fields untouched. -/
theorem combineLoop_standalones : ∀ (bs : List BaseElem) (y : Elements),
    (combineLoop y bs).cold_standalone = y.cold_standalone ∧
    (combineLoop y bs).electricity_standalone = y.electricity_standalone ∧
    (combineLoop y bs).heat_standalone = y.heat_standalone ∧
    (combineLoop y bs).toxin_standalone = y.toxin_standalone
  | [], _ => ⟨rfl, rfl, rfl, rfl⟩
  | [_], _ => ⟨rfl, rfl, rfl, rfl⟩
  | e1 :: e2 :: rest, y => by
    have hs := combineStep_standalones y e1 e2
    have ih := combineLoop_standalones rest (combineStep y e1 e2)
    exact ⟨ih.1.trans hs.1, ih.2.1.trans hs.2.1, ih.2.2.1.trans hs.2.2.1,
      ih.2.2.2.trans hs.2.2.2⟩

/-- Folding the standalone fields into a vector whose standalone fields are
already zero changes nothing. -/
theorem combineStandalone_id (x : Elements)
    (h1 : x.cold_standalone = 0) (h2 : x.electricity_standalone = 0)
    (h3 : x.heat_standalone = 0) (h4 : x.toxin_standalone = 0) :
    combineStandalone x = x := by
  ext <;> simp_all [combineStandalone]

/-- `combine_elements` with the default standalone folding, unrolled. -/
theorem combine_elements_unfold (z : Elements) (order : List ElemName) :
    z.combine_elements order
      = combineStandalone (combineLoop z (dedupBasics order [])) := by
  unfold Elements.combine_elements
  simp

/-- C8 (counterexample): on a vector whose only damage is standalone heat,
calling `combine_elements` with the order heat-then-toxin twice does not agree
with calling it once: the first call folds the standalone heat into the heat
field after the pairing loop has run, and the second call then moves that
damage into gas. -/
theorem C8_counterexample :
    (e8cx.combine_elements o8cx).combine_elements o8cx
      ≠ e8cx.combine_elements o8cx := by
  have hd : dedupBasics o8cx [] = [BaseElem.heat, BaseElem.toxin] := by
    simp [o8cx, dedupBasics, ElemName.toBase]
  have h1 : e8cx.combine_elements o8cx = { heat := 1 } := by
    rw [combine_elements_unfold, hd]
    show combineStandalone (combineStep e8cx .heat .toxin) = _
    unfold e8cx combineStep combineStandalone
    norm_num [pairCombine, BaseElem.toName, Elements.get, Elements.set]
  have h2 : ({ heat := 1 } : Elements).combine_elements o8cx = { gas := 1 } := by
    rw [combine_elements_unfold, hd]
    show combineStandalone (combineStep { heat := 1 } .heat .toxin) = _
    unfold combineStep combineStandalone
    norm_num [pairCombine, BaseElem.toName, Elements.get, Elements.set]
  rw [h1, h2]
  intro h
  exact absurd (congrArg Elements.heat h) (by norm_num)

/-- C8 (amended): `combine_elements` is idempotent for the same application
order provided the vector's standalone fields are zero (as they are for every
vector that has already been through a default `combine_elements` call, which
folds and zeroes them): the pairing loop then re-adds only zeroes, so no
damage is double-counted.  With a non-zero standalone field the second call
moves that damage into a compound element (see the counterexample). -/
theorem C8_amended (x : Elements) (order : List ElemName)
    (h1 : x.cold_standalone = 0) (h2 : x.electricity_standalone = 0)
    (h3 : x.heat_standalone = 0) (h4 : x.toxin_standalone = 0) :
    (x.combine_elements order).combine_elements order
      = x.combine_elements order := by
  have hsa := combineLoop_standalones (dedupBasics order []) x
  have hy : combineStandalone (combineLoop x (dedupBasics order []))
      = combineLoop x (dedupBasics order []) :=
    combineStandalone_id _ (hsa.1.trans h1) (hsa.2.1.trans h2)
      (hsa.2.2.1.trans h3) (hsa.2.2.2.trans h4)
  rw [combine_elements_unfold x order, hy, combine_elements_unfold,
    combineLoop_fixed (dedupBasics order []) _
      (fun b hb => combineLoop_zeroes (dedupBasics order []) x b hb), hy]

/-- C8 (witness): the amended idempotence applied to a pure-heat vector and
the order heat-then-toxin. -/
theorem C8_witness :
    ((({ heat := 1 } : Elements).combine_elements o8cx).combine_elements o8cx)
      = ({ heat := 1 } : Elements).combine_elements o8cx :=
  C8_amended { heat := 1 } o8cx rfl rfl rfl rfl

end WF
